import Mathlib

/-!
Shallow embedding of the cpp-reactive library (src/Reactive.hpp, src/Signal.hpp,
src/lib.cpp) and proofs about its specified behaviour.

A reactive cell (class `Reactive<T>`) holds a value, a set of thread ids that
are currently "in context" (the reentrancy guard, `m_contexts`), an ordered
listener list (`m_listeners`, a `std::list` whose node identities serve as
listener ids), and a counter that models the allocation of fresh list nodes.
Listener callbacks are opaque: what `set` does with them is recorded in an
event trace, one `Event` per callback invocation, carrying the argument passed
to the callback and the value that `get()` would have returned at that moment
(the stored value at the time of the call).
-/

namespace CppReactive

/-- State of a `Reactive<T>` cell: `value` is `m_value`, `contexts` is
`m_contexts` (a set of thread ids), `listeners` is the ordered list of
listener-node identities in `m_listeners`, and `nextId` models the allocator
producing a fresh node identity for each `push_back`. -/
structure Cell (T : Type) where
  value : T
  contexts : Finset Nat
  listeners : List Nat
  nextId : Nat
deriving DecidableEq

/-- One listener invocation: which listener ran, the argument it received,
and the cell's stored value at the moment of the call (what a `get()` issued
during the callback would return). -/
structure Event (T : Type) where
  listener : Nat
  arg : T
  stored : T
deriving DecidableEq

variable {T : Type}

/-- Embedding of `Reactive::set` (Reactive.hpp lines 254-276): if the calling
thread is already in `m_contexts` the write is rejected (log and return,
nothing changes, no events).  Otherwise the thread id is inserted, the
listener list is snapshotted, each snapshotted listener is invoked with the
new value while `m_value` still holds the prior value, and only then is the
value committed and the thread id erased. -/
def Cell.set (c : Cell T) (tid : Nat) (v : T) : Cell T × List (Event T) :=
  if tid ∈ c.contexts then
    (c, [])
  else
    let snapshot := c.listeners
    let evs := snapshot.map fun l => Event.mk l v c.value
    ({ c with value := v, contexts := (insert tid c.contexts).erase tid }, evs)

/-- Embedding of `Reactive::react` (Reactive.hpp lines 299-303): append a
listener node at the back of `m_listeners` and return its identity (the
iterator to the new node). -/
def Cell.react (c : Cell T) : Cell T × Nat :=
  ({ c with listeners := c.listeners ++ [c.nextId], nextId := c.nextId + 1 }, c.nextId)

/-- Embedding of `Reactive::unreact` (Reactive.hpp lines 304-307):
`m_listeners.erase(it)` unconditionally.  `std::list::erase` requires a valid
dereferenceable iterator; passing an iterator whose node was already erased is
undefined behaviour, rendered here as `none`. -/
def Cell.unreact (c : Cell T) (it : Nat) : Option (Cell T) :=
  if it ∈ c.listeners then some { c with listeners := c.listeners.erase it }
  else none

/-- Embedding of `Reactive::Session`: the working copy `m_tempVal`.  (The
owned `Weak` is implicit: the session operations below are stated against a
live target cell; a dead target is handled at the `RefState` level.) -/
structure Session (T : Type) where
  tempVal : T
deriving DecidableEq

/-- Embedding of the `Session` constructor (Reactive.hpp lines 84-87): copy
the current value into the working copy and insert the calling thread into the
cell's `m_contexts`.  No listener is invoked (the constructor body contains no
callback call, hence no events). -/
def openSession (c : Cell T) (tid : Nat) : Cell T × Session T :=
  ({ c with contexts := insert tid c.contexts }, ⟨c.value⟩)

/-- One mutation of the working copy through `operator*` / `operator->` /
`operator=`: only `m_tempVal` changes, the cell is untouched and no listener
is invoked (hence no events in the return type). -/
def sessionApply (s : Session T) (f : T → T) : Session T :=
  ⟨f s.tempVal⟩

/-- Embedding of `Session::~Session` on a live target (Reactive.hpp lines
104-114): erase the calling thread from `m_contexts`, deregister the weak
handle, then commit the working copy through the normal `set` path. -/
def closeSession (c : Cell T) (tid : Nat) (s : Session T) : Cell T × List (Event T) :=
  Cell.set { c with contexts := c.contexts.erase tid } tid s.tempVal

/-- Embedding of `Reactive::Ref`: `target` is the weak handle's view of the
cell (`none` after the cell was destroyed and nulled every registered weak,
Reactive.hpp lines 244-251), `owned` is the set of listener identities this
Ref registered (`m_listeners`). -/
structure RefState (T : Type) where
  target : Option (Cell T)
  owned : Finset Nat
deriving DecidableEq

/-- Embedding of `Ref::get` (Reactive.hpp lines 176-181): lock the weak
handle; absent target yields `none`, otherwise the current value. -/
def RefState.get (r : RefState T) : Option T :=
  r.target.map Cell.value

/-- Embedding of `Ref::set` (Reactive.hpp lines 189-196): lock the weak
handle; absent target returns `false` and changes nothing, otherwise forward
to `Reactive::set` and return `true` together with the invocation events. -/
def RefState.set (r : RefState T) (tid : Nat) (v : T) : RefState T × Bool × List (Event T) :=
  match r.target with
  | none => (r, false, [])
  | some c =>
    let p := c.set tid v
    ({ r with target := some p.1 }, true, p.2)

/-- Embedding of `Ref::react` (Reactive.hpp lines 158-166): lock the weak
handle; absent target returns no identity and registers nothing, otherwise
register on the cell and record the identity in `owned`. -/
def RefState.react (r : RefState T) : RefState T × Option Nat :=
  match r.target with
  | none => (r, none)
  | some c =>
    let p := c.react
    (⟨some p.1, insert p.2 r.owned⟩, some p.2)

/-- Embedding of `Ref::unreact` (Reactive.hpp lines 168-174): lock the weak
handle; absent target is a no-op, otherwise forward to `Reactive::unreact`
(whose stale-iterator case is undefined behaviour) and drop the identity from
`owned`. -/
def RefState.unreact (r : RefState T) (it : Nat) : Option (RefState T) :=
  match r.target with
  | none => some r
  | some c => (c.unreact it).map fun c2 => ⟨some c2, r.owned.erase it⟩

/-- Embedding of `Ref::session` (Reactive.hpp lines 198-203): lock the weak
handle; absent target yields no session, otherwise open a session on the
cell. -/
def RefState.session (r : RefState T) (tid : Nat) : RefState T × Option (Session T) :=
  match r.target with
  | none => (r, none)
  | some c =>
    let p := openSession c tid
    ({ r with target := some p.1 }, some p.2)

/-- Auxiliary: folding working-copy mutations only rewrites `tempVal`. -/
theorem foldl_sessionApply_tempVal (fs : List (T → T)) (s : Session T) :
    (fs.foldl sessionApply s).tempVal = fs.foldl (fun a f => f a) s.tempVal := by
  induction fs generalizing s with
  | nil => rfl
  | cons f fs ih => simpa [sessionApply] using ih ⟨f s.tempVal⟩

/-- C3: if the calling thread is already marked in the cell's in-context set,
`set(v)` is a no-op apart from logging: the stored value, the listener list
and the context set are all unchanged and no listener is invoked. -/
theorem set_rejected_in_context (c : Cell T) (tid : Nat) (v : T)
    (h : tid ∈ c.contexts) :
    c.set tid v = (c, []) := by
  simp [Cell.set, h]

/-- C3 witness at a concrete cell. -/
theorem set_rejected_in_context_witness :
    Cell.set (Cell.mk (0 : Int) {0} [3] 4) 0 7 = (Cell.mk 0 {0} [3] 4, []) :=
  set_rejected_in_context (Cell.mk (0 : Int) {0} [3] 4) 0 7 (by decide)

/-- C4: an accepted `set(new)` snapshots the listener list and invokes each
snapshotted listener with `new` as argument while the stored value still holds
the prior value; after all listeners return the stored value is `new`, the
in-context mark is cleared (the context set is back to its prior state), and
the listener list is unchanged. -/
theorem set_commit_protocol (c : Cell T) (tid : Nat) (v : T)
    (h : tid ∉ c.contexts) :
    (c.set tid v).2 = c.listeners.map (fun l => Event.mk l v c.value) ∧
    (c.set tid v).1.value = v ∧
    (c.set tid v).1.listeners = c.listeners ∧
    (c.set tid v).1.contexts = c.contexts := by
  simp [Cell.set, h, Finset.erase_insert h]

/-- C4 witness at a concrete cell with two listeners. -/
theorem set_commit_protocol_witness :
    (Cell.set (Cell.mk (5 : Int) ∅ [1, 2] 3) 0 9).2
        = [Event.mk 1 9 5, Event.mk 2 9 5] ∧
    (Cell.set (Cell.mk (5 : Int) ∅ [1, 2] 3) 0 9).1.value = 9 := by
  have h := set_commit_protocol (Cell.mk (5 : Int) ∅ [1, 2] 3) 0 9 (by decide)
  exact ⟨by simpa using h.1, h.2.1⟩

/-- C1: every operation through a Ref whose target cell has been destroyed
(the weak handle was nulled by `~Reactive`) observes an absent target:
`get` returns no value, `session` returns no value, `set` returns `false`,
`react` returns no identity and registers nothing, `unreact` is a no-op; in
every case the Ref state (and hence any cell state) is untouched. -/
theorem ref_dead_target_all_absent (r : RefState T) (tid it : Nat) (v : T)
    (h : r.target = none) :
    r.get = none ∧
    r.session tid = (r, none) ∧
    r.set tid v = (r, false, []) ∧
    r.react = (r, none) ∧
    r.unreact it = some r := by
  obtain ⟨tgt, owned⟩ := r
  cases h
  simp [RefState.get, RefState.session, RefState.set, RefState.react, RefState.unreact]

/-- C1 witness at a concrete dead Ref. -/
theorem ref_dead_target_all_absent_witness :
    (RefState.mk (T := Int) none {4}).get = none ∧
    (RefState.mk (T := Int) none {4}).session 0 = (RefState.mk none {4}, none) ∧
    (RefState.mk (T := Int) none {4}).set 0 9 = (RefState.mk none {4}, false, []) ∧
    (RefState.mk (T := Int) none {4}).react = (RefState.mk none {4}, none) ∧
    (RefState.mk (T := Int) none {4}).unreact 4 = some (RefState.mk none {4}) :=
  ref_dead_target_all_absent (RefState.mk (T := Int) none {4}) 0 4 9 rfl

/-- C2: on a live cell, a session opened by thread `tid` that performs any
sequence of working-copy mutations `fs` and then closes invokes each listener
registered on the cell exactly once (the event trace is precisely the listener
list, in order), carrying the final accumulated working-copy value as the
argument, and commits that value.  Opening the session and mutating the
working copy produce no events at all, so no listener runs before the close. -/
theorem session_commits_once (c : Cell T) (tid : Nat) (fs : List (T → T)) :
    (closeSession (openSession c tid).1 tid
        (fs.foldl sessionApply (openSession c tid).2)).2
      = c.listeners.map (fun l => Event.mk l (fs.foldl (fun a f => f a) c.value) c.value) ∧
    (closeSession (openSession c tid).1 tid
        (fs.foldl sessionApply (openSession c tid).2)).1.value
      = fs.foldl (fun a f => f a) c.value := by
  have htmp : (fs.foldl sessionApply (⟨c.value⟩ : Session T)).tempVal
      = fs.foldl (fun a f => f a) c.value := by
    simpa using foldl_sessionApply_tempVal fs ⟨c.value⟩
  constructor <;>
    simp [closeSession, openSession, Cell.set, htmp, Finset.not_mem_erase]

/-- C7 counterexample: cell value 0 with one listener (id 5); thread 0 opens a
first session, then a second session on the same cell before the first closes,
writes 22 into the second session's working copy and closes the second
session.  Contrary to the claim, the second session's commit is not rejected:
it is written to the cell (value becomes 22) and produces a notification. -/
theorem overlapping_sessions_claim_false :
    (closeSession (openSession (openSession (Cell.mk (0 : Int) ∅ [5] 6) 0).1 0).1 0
        (sessionApply (openSession (openSession (Cell.mk (0 : Int) ∅ [5] 6) 0).1 0).2
          (fun _ => 22))).2 = [Event.mk 5 22 0] ∧
    (closeSession (openSession (openSession (Cell.mk (0 : Int) ∅ [5] 6) 0).1 0).1 0
        (sessionApply (openSession (openSession (Cell.mk (0 : Int) ∅ [5] 6) 0).1 0).2
          (fun _ => 22))).1.value = 22 := by
  constructor <;> rfl

/-- C7 amended: opening a second session on the same cell from the same
thread before the first closes rejects neither commit.  The in-context set
holds at most one entry per thread and each close erases that entry before
committing, so the reentrancy guard never fires: closing the second session
commits its working copy `w2` with one notification per listener, and closing
the first afterwards commits `w1` with one further notification per listener
(whose pre-commit stored value is then `w2`). -/
theorem overlapping_sessions_both_commit (c : Cell T) (tid : Nat) (w1 w2 : T) :
    (closeSession (openSession (openSession c tid).1 tid).1 tid
        (sessionApply ((openSession (openSession c tid).1 tid).2) (fun _ => w2))).2
      = c.listeners.map (fun l => Event.mk l w2 c.value) ∧
    (closeSession (openSession (openSession c tid).1 tid).1 tid
        (sessionApply ((openSession (openSession c tid).1 tid).2) (fun _ => w2))).1.value
      = w2 ∧
    (closeSession
        (closeSession (openSession (openSession c tid).1 tid).1 tid
          (sessionApply ((openSession (openSession c tid).1 tid).2) (fun _ => w2))).1 tid
        (sessionApply (openSession c tid).2 (fun _ => w1))).2
      = c.listeners.map (fun l => Event.mk l w1 w2) ∧
    (closeSession
        (closeSession (openSession (openSession c tid).1 tid).1 tid
          (sessionApply ((openSession (openSession c tid).1 tid).2) (fun _ => w2))).1 tid
        (sessionApply (openSession c tid).2 (fun _ => w1))).1.value
      = w1 := by
  refine ⟨?_, ?_, ?_, ?_⟩ <;>
    simp [closeSession, openSession, sessionApply, Cell.set, Finset.not_mem_erase]

/-- Embedding of `Observer` (lib.cpp lines 15-42): `signals` is the
`m_signals` map from signal identity to the stored unsubscribe closure.  The
closure captures only the listener identity it will `unreact`, so it is
modelled by that identity. -/
structure Observer where
  signals : List (Nat × Nat)
deriving DecidableEq

/-- Embedding of `Observer::signalAdded` (lib.cpp lines 23-26): is the signal
identity a key of `m_signals`. -/
def Observer.signalAdded (ob : Observer) (id : Nat) : Bool :=
  (ob.signals.lookup id).isSome

/-- Insert-or-assign on an association list, the behaviour of
`m_signals[id] = unreactFunc` on a `std::unordered_map` (keyed lookup order is
irrelevant to the claims; the list keeps first-insertion order). -/
def assocSet : List (Nat × Nat) → Nat → Nat → List (Nat × Nat)
  | [], k, v => [(k, v)]
  | (k2, v2) :: rest, k, v =>
    if k2 = k then (k, v) :: rest else (k2, v2) :: assocSet rest k v

/-- Embedding of `Observer::addSignal` (lib.cpp lines 27-30). -/
def Observer.addSignal (ob : Observer) (id tok : Nat) : Observer :=
  ⟨assocSet ob.signals id tok⟩

/-- Embedding of `SignalBase::operator*` (Signal.hpp lines 100-116): given the
result of `ObserverStack::shared()->top()`, if there is a top observer and it
has not recorded this signal's identity, register a listener on the underlying
cell (whose callback schedules that observer) and record
(signal id, unsubscribe token) in the observer's map; otherwise nothing is
registered.  Returns the new cell, the new top observer, and the registered
listener identity if any. -/
def derefSignal (sigId : Nat) (c : Cell T) (top : Option Observer) :
    Cell T × Option Observer × Option Nat :=
  match top with
  | none => (c, none, none)
  | some ob =>
    if ob.signalAdded sigId then (c, some ob, none)
    else
      let p := c.react
      (p.1, some (ob.addSignal sigId p.2), some p.2)

/-- State-only version of `derefSignal` with a present top observer, used to
iterate reads. -/
def deref1 (sigId : Nat) (s : Cell T × Observer) : Cell T × Observer :=
  if s.2.signalAdded sigId then s
  else
    let p := s.1.react
    (p.1, s.2.addSignal sigId p.2)

/-- Iterated reads of the same signal by the same top observer. -/
def derefIter (sigId : Nat) : Nat → Cell T × Observer → Cell T × Observer
  | 0, s => s
  | n + 1, s => derefIter sigId n (deref1 sigId s)

/-- Auxiliary: `derefSignal` with a present top observer is `deref1` on the
state, returning the fresh listener identity exactly when the identity was not
yet recorded. -/
theorem derefSignal_eq_deref1 (sigId : Nat) (c : Cell T) (ob : Observer) :
    derefSignal sigId c (some ob)
      = ((deref1 sigId (c, ob)).1, some (deref1 sigId (c, ob)).2,
          if ob.signalAdded sigId then none else some c.nextId) := by
  by_cases h : ob.signalAdded sigId <;> simp [derefSignal, deref1, Cell.react, h]

/-- Auxiliary: insert-or-assign makes the key present. -/
theorem lookup_assocSet_self (l : List (Nat × Nat)) (k v : Nat) :
    (assocSet l k v).lookup k = some v := by
  induction l with
  | nil => simp [assocSet]
  | cons p rest ih =>
    obtain ⟨k2, v2⟩ := p
    by_cases h : k2 = k
    · simp [assocSet, h]
    · simp [assocSet, h, List.lookup, ih, beq_false_of_ne (Ne.symm h)]

/-- Auxiliary: after one read the observer has recorded the identity. -/
theorem deref1_signalAdded (sigId : Nat) (s : Cell T × Observer) :
    ((deref1 sigId s).2).signalAdded sigId = true := by
  by_cases h : s.2.signalAdded sigId
  · simp [deref1, h]
  · unfold deref1
    rw [if_neg h]
    simp [Observer.signalAdded, Observer.addSignal, lookup_assocSet_self]

/-- Auxiliary: reads after the first recorded one change nothing. -/
theorem derefIter_fixed (sigId : Nat) (n : Nat) (s : Cell T × Observer)
    (h : s.2.signalAdded sigId = true) :
    derefIter sigId n s = s := by
  induction n with
  | zero => rfl
  | succ n ih => simp [derefIter, deref1, h, ih]

/-- C5: dereferencing a signal with a top observer registers a listener on the
underlying cell and records (signal id, unsubscribe token) in the observer's
dependency map if and only if the observer has not already recorded that
signal's identity; consequently, however many times the observer reads the
signal, at most one registration is added: every read after the first changes
neither the cell nor the observer. -/
theorem signal_deref_once_per_identity (sigId : Nat) (c : Cell T) (ob : Observer) :
    (ob.signalAdded sigId = true →
        derefSignal sigId c (some ob) = (c, some ob, none)) ∧
    (ob.signalAdded sigId = false →
        derefSignal sigId c (some ob)
          = ((c.react).1, some (ob.addSignal sigId (c.react).2), some (c.react).2) ∧
        ((c.react).1).listeners = c.listeners ++ [c.nextId]) ∧
    (∀ n, derefIter sigId n (deref1 sigId (c, ob)) = deref1 sigId (c, ob)) := by
  refine ⟨fun h => by simp [derefSignal, h],
          fun h => ⟨by simp [derefSignal, h], by simp [Cell.react]⟩,
          fun n => derefIter_fixed sigId n _ (deref1_signalAdded sigId (c, ob))⟩

/-- C5 witness: a fresh observer reading a concrete cell registers exactly
once; both implications are discharged on matching concrete inputs. -/
theorem signal_deref_once_per_identity_witness :
    derefSignal 0 (Cell.mk (0 : Int) ∅ [] 0) (some (Observer.mk [(0, 0)]))
      = (Cell.mk 0 ∅ [] 0, some (Observer.mk [(0, 0)]), none) ∧
    derefSignal 0 (Cell.mk (0 : Int) ∅ [] 0) (some (Observer.mk []))
      = (Cell.mk 0 ∅ [0] 1, some (Observer.mk [(0, 0)]), some 0) ∧
    derefIter 0 5 (deref1 0 (Cell.mk (0 : Int) ∅ [] 0, Observer.mk []))
      = deref1 0 (Cell.mk (0 : Int) ∅ [] 0, Observer.mk []) := by
  refine ⟨(signal_deref_once_per_identity 0 (Cell.mk (0 : Int) ∅ [] 0)
            (Observer.mk [(0, 0)])).1 (by decide), ?_,
          (signal_deref_once_per_identity 0 (Cell.mk (0 : Int) ∅ [] 0)
            (Observer.mk [])).2.2 5⟩
  have h := (signal_deref_once_per_identity 0 (Cell.mk (0 : Int) ∅ [] 0)
      (Observer.mk [])).2.1 (by decide)
  simpa [Cell.react, Observer.addSignal, assocSet] using h.1

/-- C9 counterexample: on a cell whose only listener has identity 7,
`unreact 7` removes it, and a second `unreact 7` — an identity that has
already been removed — is not a no-op: it erases an invalidated iterator,
which is undefined behaviour (`none`), not an unchanged listener list. -/
theorem unreact_stale_not_noop :
    ((Cell.mk (0 : Int) ∅ [7] 8).unreact 7).bind (fun c2 => c2.unreact 7) = none := by
  decide

/-- C9 amended: `unreact(listener_id)` removes the listener with that identity
from the listener list; calling it with an identity that has already been
removed is undefined behaviour (`std::list::erase` on an invalidated
iterator), not a guaranteed no-op. -/
theorem unreact_removes_or_ub (c : Cell T) (it : Nat) :
    (it ∈ c.listeners →
        c.unreact it = some { c with listeners := c.listeners.erase it }) ∧
    (it ∉ c.listeners → c.unreact it = none) := by
  constructor <;> intro h <;> simp [Cell.unreact, h]

/-- C9 witness: removing a present identity, and the undefined stale case, on
concrete cells. -/
theorem unreact_removes_or_ub_witness :
    (Cell.mk (0 : Int) ∅ [7] 8).unreact 7 = some (Cell.mk 0 ∅ [] 8) ∧
    (Cell.mk (0 : Int) ∅ [] 8).unreact 7 = none := by
  constructor
  · have h := (unreact_removes_or_ub (Cell.mk (0 : Int) ∅ [7] 8) 7).1 (by decide)
    simpa using h
  · exact (unreact_removes_or_ub (Cell.mk (0 : Int) ∅ [] 8) 7).2 (by decide)

/-- Embedding of the `ObserverStack` scheduler state (Signal.hpp lines 36-59):
`active` is `activeObs` (observer identities, innermost last) and `scheduled`
is `scheduledObs`.  Observers are named by identities; `live : Nat → Bool`
models whether a `std::weak_ptr::lock` on that observer succeeds, and
`effects : Nat → List Nat` models what an observer's effect does when it runs:
the observer identities it schedules (via listeners firing inside the
effect). -/
structure OSState where
  active : List Nat
  scheduled : List Nat
deriving DecidableEq

/-- Embedding of the scan at the top of `ObserverStack::run` (lib.cpp lines
100-110): walk `activeObs` from the front, erasing dead entries; if a live
entry equals the observer being run, stop there (circular) leaving the rest of
the stack unscanned.  Returns the stack as the scan leaves it and whether a
circular run was detected. -/
def circScan (live : Nat → Bool) (ob : Nat) : List Nat → List Nat × Bool
  | [] => ([], false)
  | x :: xs =>
    if live x then
      if x = ob then (x :: xs, true)
      else
        let r := circScan live ob xs
        (x :: r.1, r.2)
    else circScan live ob xs

/-- Embedding of `ObserverStack::run` (lib.cpp lines 96-122): scan the active
stack for the observer (pruning dead entries); on a circular hit, log and
return without running.  Otherwise push the observer, clear its prior
subscriptions, invoke the effect (which appends the identities it schedules to
`scheduledObs`), and pop.  The boolean reports whether the effect actually
ran. -/
def runOb (effects : Nat → List Nat) (live : Nat → Bool) (ob : Nat)
    (st : OSState) : OSState × Bool :=
  let chk := circScan live ob st.active
  if chk.2 then
    ({ st with active := chk.1 }, false)
  else
    let pushed := chk.1 ++ [ob]
    ({ active := pushed.dropLast, scheduled := st.scheduled ++ effects ob }, true)

/-- Embedding of `ObserverStack::update` (lib.cpp lines 53-67): snapshot the
scheduled queue, run every snapshot entry whose weak pointer still locks, and
only afterwards clear the live scheduled queue.  The second component collects
the observers whose effects actually ran, in order. -/
def ObserverStack.update (effects : Nat → List Nat) (live : Nat → Bool)
    (st : OSState) : OSState × List Nat :=
  let snapshot := st.scheduled
  let res := snapshot.foldl
    (fun acc ob =>
      if live ob then
        let r := runOb effects live ob acc.1
        (r.1, acc.2 ++ if r.2 then [ob] else [])
      else acc)
    (st, [])
  ({ res.1 with scheduled := [] }, res.2)

/-- Embedding of `ObserverStack::create` (lib.cpp lines 76-80): allocate the
observer and return it; nothing else happens — in particular no effect runs
(empty run trace). -/
def ObserverStack.create (newOb : Nat) (st : OSState) : Nat × OSState × List Nat :=
  (newOb, st, [])

/-- Embedding of `Observatory::reactToChanges` (Signal.hpp lines 71-81):
create the observer, append it to the observatory's list, then synchronously
`run` it before returning.  Returns the observatory list, the scheduler state,
and the trace of effects that ran. -/
def Observatory.reactToChanges (effects : Nat → List Nat) (live : Nat → Bool)
    (newOb : Nat) (obsy : List Nat) (st : OSState) :
    List Nat × OSState × List Nat :=
  let cr := ObserverStack.create newOb st
  let r := runOb effects live cr.1 cr.2.1
  (obsy ++ [cr.1], r.1, cr.2.2 ++ if r.2 then [cr.1] else [])

/-- Auxiliary: the circular scan only reports a hit for an observer present in
the scanned stack. -/
theorem circScan_not_mem (live : Nat → Bool) (ob : Nat) (l : List Nat)
    (h : ob ∉ l) : (circScan live ob l).2 = false := by
  induction l with
  | nil => rfl
  | cons x xs ih =>
    have hx : x ≠ ob := fun e => h (e ▸ List.mem_cons_self x xs)
    have hxs : ob ∉ xs := fun e => h (List.mem_cons_of_mem x e)
    by_cases hl : live x <;> simp [circScan, hl, hx, ih hxs]

/-- Auxiliary: running an observer with an empty active stack runs its effect,
appends what the effect schedules, and leaves the active stack empty. -/
theorem runOb_empty_active (effects : Nat → List Nat) (live : Nat → Bool)
    (ob : Nat) (sched : List Nat) :
    runOb effects live ob ⟨[], sched⟩ = (⟨[], sched ++ effects ob⟩, true) := by
  simp [runOb, circScan]

/-- Auxiliary: the drain loop of `update`, started with an empty active stack,
runs exactly the still-live snapshot entries in order and ends with an empty
active stack. -/
theorem update_fold_trace (effects : Nat → List Nat) (live : Nat → Bool)
    (snapshot : List Nat) (sched acc : List Nat) :
    (snapshot.foldl
        (fun acc ob =>
          if live ob then
            let r := runOb effects live ob acc.1
            (r.1, acc.2 ++ if r.2 then [ob] else [])
          else acc)
        (⟨[], sched⟩, acc)).2 = acc ++ snapshot.filter (fun o => live o) ∧
    (snapshot.foldl
        (fun acc ob =>
          if live ob then
            let r := runOb effects live ob acc.1
            (r.1, acc.2 ++ if r.2 then [ob] else [])
          else acc)
        (⟨[], sched⟩, acc)).1.active = [] := by
  induction snapshot generalizing sched acc with
  | nil => simp
  | cons x xs ih =>
    by_cases hl : live x
    · simpa [hl, runOb_empty_active, List.filter_cons] using
        ih (sched ++ effects x) (acc ++ [x])
    · simpa [hl, List.filter_cons] using ih sched acc

/-- C6 counterexample: one live scheduled observer (id 1) whose effect
schedules observer 2 while the drain is running.  Contrary to the claim,
`update()` clears the live queue only after running the snapshot, so observer
2 does not remain in the queue for the next `update()` call: the queue ends
empty. -/
theorem update_drops_mid_drain_schedules :
    (ObserverStack.update (fun n => if n = 1 then [2] else []) (fun _ => true)
        ⟨[], [1]⟩).1.scheduled = [] ∧
    2 ∉ (ObserverStack.update (fun n => if n = 1 then [2] else []) (fun _ => true)
        ⟨[], [1]⟩).1.scheduled := by
  decide

/-- C6 amended: `update()` performs its steps in this order: snapshot the
scheduled queue, run every still-live observer from the snapshot (in order),
and only then clear the live scheduled queue; consequently an observer
scheduled while the drain is running is removed by the final clear and does
not remain in the queue for the next `update()` call. -/
theorem update_runs_snapshot_then_clears (effects : Nat → List Nat)
    (live : Nat → Bool) (st : OSState) (h : st.active = []) :
    (ObserverStack.update effects live st).2
      = st.scheduled.filter (fun o => live o) ∧
    (ObserverStack.update effects live st).1.scheduled = [] := by
  obtain ⟨act, sched⟩ := st
  cases h
  have hf := update_fold_trace effects live sched sched []
  exact ⟨by simpa [ObserverStack.update] using hf.1, by simp [ObserverStack.update]⟩

/-- C6 amended witness: a concrete drain with one dead and two live scheduled
observers. -/
theorem update_runs_snapshot_then_clears_witness :
    (ObserverStack.update (fun _ => []) (fun n => decide (n ≠ 9)) ⟨[], [1, 9, 2]⟩).2
      = [1, 2] ∧
    (ObserverStack.update (fun _ => []) (fun n => decide (n ≠ 9)) ⟨[], [1, 9, 2]⟩).1.scheduled
      = [] := by
  have h := update_runs_snapshot_then_clears (fun _ => [])
    (fun n => decide (n ≠ 9)) ⟨[], [1, 9, 2]⟩ rfl
  exact ⟨by rw [h.1]; decide, h.2⟩

/-- C10: `Observatory::reactToChanges(effect)` synchronously runs the new
observer's effect exactly once before returning (via `ObserverStack::run`,
provided the fresh observer is not already on the active stack, which holds
for a newly created observer), so dependencies are discovered at registration
time; `ObserverStack::create` alone has an empty run trace — it never runs the
effect. -/
theorem reactToChanges_runs_effect_once (effects : Nat → List Nat)
    (live : Nat → Bool) (newOb : Nat) (obsy : List Nat) (st : OSState)
    (h : newOb ∉ st.active) :
    (Observatory.reactToChanges effects live newOb obsy st).2.2 = [newOb] ∧
    (Observatory.reactToChanges effects live newOb obsy st).1 = obsy ++ [newOb] ∧
    (ObserverStack.create newOb st).2.2 = [] := by
  have hc : (circScan live newOb st.active).2 = false := circScan_not_mem live newOb st.active h
  refine ⟨?_, rfl, rfl⟩
  simp [Observatory.reactToChanges, ObserverStack.create, runOb, hc]

/-- C10 witness: a fresh observer (id 3) registered while observer 1 is on the
active stack runs exactly once. -/
theorem reactToChanges_runs_effect_once_witness :
    (Observatory.reactToChanges (fun _ => []) (fun _ => true) 3 [7] ⟨[1], []⟩).2.2
      = [3] ∧
    (Observatory.reactToChanges (fun _ => []) (fun _ => true) 3 [7] ⟨[1], []⟩).1
      = [7, 3] ∧
    (ObserverStack.create 3 (⟨[1], []⟩ : OSState)).2.2 = [] :=
  reactToChanges_runs_effect_once (fun _ => []) (fun _ => true) 3 [7] ⟨[1], []⟩
    (by decide)

/-- Embedding of the signal identity mechanism (Signal.hpp lines 86-98):
`counter` is the shared `s_signalCounter` and `sigs` lists, in construction
order, the identity carried by each live `SignalBase` object. -/
structure SigWorld where
  counter : Nat
  sigs : List Nat
deriving DecidableEq

/-- One `SignalBase` construction.  `fresh` covers the default, value and copy
constructors, whose member initialiser runs `m_id = s_signalCounter++`;
`moveFrom i` is the move constructor `SignalBase(SignalBase&&)`, whose
initialiser list copies `m_id(other.m_id)` from the live object at position
`i` and never touches the counter (the moved-from object keeps its `const`
identity and stays alive). -/
inductive SigCtor where
  | fresh : SigCtor
  | moveFrom : Nat → SigCtor
deriving DecidableEq

/-- Apply one construction to the world. -/
def construct (w : SigWorld) : SigCtor → SigWorld
  | .fresh => ⟨w.counter + 1, w.sigs ++ [w.counter]⟩
  | .moveFrom i => ⟨w.counter, w.sigs ++ [w.sigs.getD i 0]⟩

/-- C8 counterexample: starting from a fresh counter, construct one signal
(identity 0) and then move-construct a second signal from it.  Both objects
are live and carry identity 0: the move construction assigned no identity from
the shared counter (the counter is still 1), the new identity is not strictly
greater than every previously assigned one, and two live signal objects share
an identity. -/
theorem signal_move_shares_identity :
    (construct (construct ⟨0, []⟩ .fresh) (.moveFrom 0)).sigs = [0, 0] ∧
    ¬ (construct (construct ⟨0, []⟩ .fresh) (.moveFrom 0)).sigs.Nodup ∧
    (construct (construct ⟨0, []⟩ .fresh) (.moveFrom 0)).counter = 1 := by
  decide

/-- C8 amended: the default, value and copy constructors each assign a fresh
identity from the shared counter that is strictly greater than every
previously assigned identity (and preserve the upper-bound invariant), but the
move constructor copies the source object's identity without consuming the
counter, so a moved-from signal and its move target are two live objects
carrying the same identity. -/
theorem signal_identity_amended (w : SigWorld) (i : Nat)
    (h : ∀ x ∈ w.sigs, x < w.counter) (hi : i < w.sigs.length) :
    (construct w .fresh).sigs = w.sigs ++ [w.counter] ∧
    (∀ x ∈ w.sigs, x < w.counter) ∧
    (∀ x ∈ (construct w .fresh).sigs, x < (construct w .fresh).counter) ∧
    (construct w (.moveFrom i)).counter = w.counter ∧
    (construct w (.moveFrom i)).sigs = w.sigs ++ [w.sigs.getD i 0] ∧
    ¬ (construct w (.moveFrom i)).sigs.Nodup := by
  refine ⟨rfl, h, ?_, rfl, rfl, ?_⟩
  · intro x hx
    rcases List.mem_append.mp hx with hx | hx
    · exact Nat.lt_succ_of_lt (h x hx)
    · simp only [List.mem_singleton] at hx
      simp [hx, construct]
  · intro hnd
    have hmem : w.sigs.getD i 0 ∈ w.sigs := by
      rw [List.getD_eq_getElem w.sigs 0 hi]
      exact List.getElem_mem hi
    have : (w.sigs ++ [w.sigs.getD i 0]).Nodup := hnd
    rw [List.nodup_append] at this
    exact this.2.2 hmem (List.mem_singleton.mpr rfl)

/-- C8 amended witness: a world with two fresh signals, moving from the
second. -/
theorem signal_identity_amended_witness :
    (construct (⟨2, [0, 1]⟩ : SigWorld) .fresh).sigs = [0, 1, 2] ∧
    (∀ x ∈ ([0, 1] : List Nat), x < 2) ∧
    (∀ x ∈ (construct (⟨2, [0, 1]⟩ : SigWorld) .fresh).sigs,
        x < (construct (⟨2, [0, 1]⟩ : SigWorld) .fresh).counter) ∧
    (construct (⟨2, [0, 1]⟩ : SigWorld) (.moveFrom 1)).counter = 2 ∧
    (construct (⟨2, [0, 1]⟩ : SigWorld) (.moveFrom 1)).sigs = [0, 1, 1] ∧
    ¬ (construct (⟨2, [0, 1]⟩ : SigWorld) (.moveFrom 1)).sigs.Nodup := by
  have h := signal_identity_amended ⟨2, [0, 1]⟩ 1 (by decide) (by decide)
  refine ⟨by simpa using h.1, h.2.1, h.2.2.1, h.2.2.2.1, by simpa using h.2.2.2.2.1,
    by simpa using h.2.2.2.2.2⟩

end CppReactive
